import Mathlib

/-!
Verification of the go-http-vfs repository: a virtual filesystem over a
dufs-style HTTP server.  The definitions below are a shallow embedding of
the Go source (`httpfs.go` and the dufs adapter): each network-performing
operation becomes a pure function taking the HTTP response(s) the server
would return as explicit arguments, and the per-handle mutable state
(cursor `index` and metadata cache `cachedState`) is passed explicitly.
Go `int64` values are modelled as `Int` (no claim here exercises overflow),
byte slices as `List Nat`, and Go's `nil` error as `none` / `Except.ok`.
-/

set_option autoImplicit false

namespace GoHtVfs

/-- Error values the adapter can return, mirroring the Go error values:
`fs.ErrNotExist`, `fs.ErrExist`, `fs.ErrInvalid`, `io.EOF`, `errors.New(resp.Status)`,
the two seek range errors, a `time.Parse` failure, and the unimplemented-Open error. -/
inductive GoErr where
  | errNotExist
  | errExist
  | errInvalid
  | eof
  | statusErr (status : String)
  | negOffset
  | outOfRange
  | parseErr
  | notImplemented (msg : String)
deriving DecidableEq

/-- Relevant observable parts of a Go `http.Response`: the status code and
status line, the header values `resp.Header.Get(...)` for the five headers the
adapter reads (Go's `Header.Get` returns `""` when the header is absent),
the declared `ContentLength`, and the body bytes. -/
structure HttpResponse where
  statusCode : Int
  status : String
  contentDisposition : String
  contentType : String
  cacheControl : String
  lastModified : String
  date : String
  contentLength : Int
  body : List Nat
deriving DecidableEq

/-- Embedding of the condition `resp.StatusCode < http.StatusOK || resp.StatusCode >= http.StatusMultipleChoices`
(i.e. the status is not 2xx), used verbatim in every response check of the source. -/
def isFailStatus (c : Int) : Bool :=
  c < 200 || 300 ≤ c

/-- Embedding of `DufsFile.determineIsDir`: a response is classified as a
directory listing exactly when it has no `Content-Disposition`, a JSON
`Content-Type`, and a `no-cache` `Cache-Control`. -/
def determineIsDir (resp : HttpResponse) : Bool :=
  resp.contentDisposition == "" &&
    resp.contentType == "application/json" &&
    resp.cacheControl == "no-cache"

/-- Embedding of the status handling of `DufsFile.json` (shared by `get` and
`head`): 404 becomes `fs.ErrNotExist`, any other non-2xx becomes `fs.ErrInvalid`,
and a 2xx response is passed through. -/
def jsonFilter (resp : HttpResponse) : Except GoErr HttpResponse :=
  if resp.statusCode == 404 then Except.error GoErr.errNotExist
  else if isFailStatus resp.statusCode then Except.error GoErr.errInvalid
  else Except.ok resp

/-- Embedding of the response handling of `DufsVFS.Remove` (the URL building and
request issuing are elided; `resp` is the server's reply to the DELETE):
404 maps to `fs.ErrNotExist`, any other non-2xx to `errors.New(resp.Status)`,
2xx to success (`none`). -/
def DufsVFS.RemoveResp (resp : HttpResponse) : Option GoErr :=
  if isFailStatus resp.statusCode then
    if resp.statusCode == 404 then some GoErr.errNotExist
    else some (GoErr.statusErr resp.status)
  else none

/-- Embedding of the response handling of `DufsVFS.copyOrRename` (shared by
`Copy` and `Rename`; `resp` is the reply to the COPY or MOVE request):
404 maps to `fs.ErrNotExist`, any other non-2xx to `errors.New(resp.Status)`,
2xx to success. -/
def DufsVFS.copyOrRenameResp (resp : HttpResponse) : Option GoErr :=
  if isFailStatus resp.statusCode then
    if resp.statusCode == 404 then some GoErr.errNotExist
    else some (GoErr.statusErr resp.status)
  else none

/-- Embedding of the response handling of `DufsVFS.Mkdir` (the reply to the
MKCOL request): 405 maps to `fs.ErrExist`, any other non-2xx to
`errors.New(resp.Status)`, 2xx to success. -/
def DufsVFS.MkdirResp (resp : HttpResponse) : Option GoErr :=
  if isFailStatus resp.statusCode then
    if resp.statusCode == 405 then some GoErr.errExist
    else some (GoErr.statusErr resp.status)
  else none

/-- C7: Remove and copy/rename map 404 to does-not-exist, Mkdir maps 405 to
already-exists, each maps any other non-2xx status to a generic error carrying
the status line, and each succeeds exactly when the status is 2xx. -/
theorem C7_status_mapping (resp : HttpResponse) :
    (DufsVFS.RemoveResp resp = none ↔ 200 ≤ resp.statusCode ∧ resp.statusCode < 300) ∧
    (resp.statusCode = 404 → DufsVFS.RemoveResp resp = some GoErr.errNotExist) ∧
    ((resp.statusCode < 200 ∨ 300 ≤ resp.statusCode) → resp.statusCode ≠ 404 →
      DufsVFS.RemoveResp resp = some (GoErr.statusErr resp.status)) ∧
    (DufsVFS.copyOrRenameResp resp = none ↔ 200 ≤ resp.statusCode ∧ resp.statusCode < 300) ∧
    (resp.statusCode = 404 → DufsVFS.copyOrRenameResp resp = some GoErr.errNotExist) ∧
    ((resp.statusCode < 200 ∨ 300 ≤ resp.statusCode) → resp.statusCode ≠ 404 →
      DufsVFS.copyOrRenameResp resp = some (GoErr.statusErr resp.status)) ∧
    (DufsVFS.MkdirResp resp = none ↔ 200 ≤ resp.statusCode ∧ resp.statusCode < 300) ∧
    (resp.statusCode = 405 → DufsVFS.MkdirResp resp = some GoErr.errExist) ∧
    ((resp.statusCode < 200 ∨ 300 ≤ resp.statusCode) → resp.statusCode ≠ 405 →
      DufsVFS.MkdirResp resp = some (GoErr.statusErr resp.status)) := by
  unfold DufsVFS.RemoveResp DufsVFS.copyOrRenameResp DufsVFS.MkdirResp isFailStatus
  by_cases h1 : resp.statusCode < 200 <;>
    by_cases h2 : (300 : Int) ≤ resp.statusCode <;>
    by_cases h3 : resp.statusCode = 404 <;>
    by_cases h4 : resp.statusCode = 405 <;>
    simp_all

/-- Witness for C7 at concrete responses: a 404 DELETE reply maps to
does-not-exist, a 405 MKCOL reply to already-exists, a 500 COPY reply to the
generic status error, and a 200 reply to success. -/
theorem C7_status_mapping_witness :
    DufsVFS.RemoveResp ⟨404, "404 Not Found", "", "", "", "", "", 0, []⟩ = some GoErr.errNotExist ∧
    DufsVFS.MkdirResp ⟨405, "405 Method Not Allowed", "", "", "", "", "", 0, []⟩ = some GoErr.errExist ∧
    DufsVFS.copyOrRenameResp ⟨500, "500 Internal Server Error", "", "", "", "", "", 0, []⟩ =
      some (GoErr.statusErr "500 Internal Server Error") ∧
    DufsVFS.RemoveResp ⟨200, "200 OK", "", "", "", "", "", 0, []⟩ = none := by
  refine ⟨?_, ?_, ?_, ?_⟩
  · exact (C7_status_mapping _).2.1 rfl
  · exact (C7_status_mapping _).2.2.2.2.2.2.2.1 rfl
  · exact (C7_status_mapping _).2.2.2.2.2.1 (Or.inr (by norm_num)) (by norm_num)
  · exact (C7_status_mapping _).1.mpr (by norm_num)

/-- Embedding of `strings.Split(name, "/")`: splits around every `/`,
keeping empty segments, and maps the empty string to a single empty segment,
exactly as Go does. Paths are modelled as `List Char`. -/
def splitSlash : List Char → List (List Char)
  | [] => [[]]
  | c :: rest =>
    if c == '/' then [] :: splitSlash rest
    else
      match splitSlash rest with
      | [] => [[c]]
      | seg :: segs => (c :: seg) :: segs

/-- Embedding of `strings.Trim(s, "/")`: removes leading and trailing `/`
characters. -/
def trimSlashes (s : List Char) : List Char :=
  ((s.dropWhile (· == '/')).reverse.dropWhile (· == '/')).reverse

/-- Embedding of `strings.HasPrefix(name, "/")`. -/
def hasLeadingSlash : List Char → Bool
  | c :: _ => c == '/'
  | [] => false

/-- Embedding of `strings.HasSuffix(p, "/")`. -/
def endsWithSlash (s : List Char) : Bool :=
  match s.getLast? with
  | some c => c == '/'
  | none => false

/-- Embedding of the segment collection in `DufsVFS.appendToRoot`: the loop
appending every non-empty piece of `strings.Split(name, "/")`. -/
def segmentsOf (name : List Char) : List (List Char) :=
  (splitSlash name).filter (fun s => !s.isEmpty)

/-- Embedding of the path computation of `DufsVFS.appendToRoot`. The function
parses the (fixed) root URL and mutates only its `Path` field, so for a given
root, equality of the produced Resource URLs is equality of this path:
`u.Path = strings.Trim(u.Path, "/") + "/" + strings.Join(segments, "/")`,
followed by appending `/` when the virtual name starts with `/` and the path
does not already end with `/`. `rootPath` is the path component of the parsed
root URL. -/
def appendToRoot (rootPath name : List Char) : List Char :=
  let segments := segmentsOf name
  let p := trimSlashes rootPath ++ ['/'] ++ List.intercalate ['/'] segments
  if hasLeadingSlash name && !endsWithSlash p then p ++ ['/'] else p

/-- C9 counterexample: the virtual paths `a` and `/a` differ only in a
redundant leading separator around the same single segment, yet they resolve
to different Resource URL paths (`root/a` versus `root/a/`), because a leading
separator in the name forces a trailing separator on the resolved path. -/
theorem C9_counterexample :
    appendToRoot "root".toList "a".toList ≠ appendToRoot "root".toList "/a".toList := by
  decide

/-- C9 amended: two virtual paths with the same non-empty segments that also
agree on whether they begin with a separator resolve to the same Resource URL
path, for every root. -/
theorem C9_amended (rootPath n1 n2 : List Char)
    (hseg : segmentsOf n1 = segmentsOf n2)
    (hlead : hasLeadingSlash n1 = hasLeadingSlash n2) :
    appendToRoot rootPath n1 = appendToRoot rootPath n2 := by
  unfold appendToRoot
  rw [hseg, hlead]

/-- Witness for the amended C9: `a//b/` and `a/b` differ only in redundant
non-leading separators and resolve to the same path. -/
theorem C9_amended_witness :
    appendToRoot "root".toList "a//b/".toList = appendToRoot "root".toList "a/b".toList := by
  exact C9_amended _ _ _ (by decide) (by decide)

/-- Embedding of `HttpFileInfo`: name, size, mode (`fs.ModePerm` = 511), the
modification time (`none` is Go's zero `time.Time`), and the directory flag. -/
structure HttpFileInfo where
  name : String
  size : Int
  mode : Nat
  mtime : Option Int
  isDir : Bool
deriving DecidableEq

/-- Mutable state of a `DufsFile` handle: the cursor `index` and the metadata
cache `cachedState` (`none` is Go's nil). -/
structure DufsFileState where
  index : Int
  cachedState : Option HttpFileInfo
deriving DecidableEq

/-- Embedding of the body of `DufsFile.Stat` after the HEAD reply passed the
status filter. `parse` stands for `time.Parse(time.RFC1123, ·)` (an external
collaborator): `some t` when the string parses, `none` when `time.Parse`
returns an error. Mirrors the source: take `Last-Modified`, fall back to
`Date` when it is empty; when the chosen value is non-empty and fails to
parse, return the parse error; size is 0 for directories and the declared
content length otherwise. -/
def DufsFile.statOnResp (parse : String → Option Int) (name : String)
    (resp : HttpResponse) : Except GoErr HttpFileInfo :=
  let lm0 := resp.lastModified
  let lm := if lm0 = "" then resp.date else lm0
  let mtimeRes : Except GoErr (Option Int) :=
    if lm = "" then Except.ok none
    else
      match parse lm with
      | some t => Except.ok (some t)
      | none => Except.error GoErr.parseErr
  match mtimeRes with
  | Except.error e => Except.error e
  | Except.ok mtime =>
    let isDir := determineIsDir resp
    let size := if isDir then 0 else resp.contentLength
    Except.ok { name := name, size := size, mode := 511, mtime := mtime, isDir := isDir }

/-- Embedding of `DufsFile.Stat`: `resp` is the server's reply to the HEAD
request; it first goes through the status filter of `json`, then the header
decoding, and on success the cached metadata is unconditionally overwritten. -/
def DufsFile.Stat (parse : String → Option Int) (name : String)
    (st : DufsFileState) (resp : HttpResponse) :
    Except GoErr HttpFileInfo × DufsFileState :=
  match jsonFilter resp with
  | Except.error e => (Except.error e, st)
  | Except.ok r =>
    match DufsFile.statOnResp parse name r with
    | Except.error e => (Except.error e, st)
    | Except.ok info => (Except.ok info, { st with cachedState := some info })

/-- Embedding of `DufsFile.CachedStat`: returns the cached metadata when
present, otherwise delegates to `Stat` (which populates the cache). -/
def DufsFile.CachedStat (parse : String → Option Int) (name : String)
    (st : DufsFileState) (resp : HttpResponse) :
    Except GoErr HttpFileInfo × DufsFileState :=
  match st.cachedState with
  | some info => (Except.ok info, st)
  | none => DufsFile.Stat parse name st resp

/-- C8 counterexample: a 2xx HEAD reply whose `Last-Modified` header holds an
unparseable value (`"garbage"`, with `parse` the RFC1123 parser under which it
does not parse) makes `Stat` fail with the parse error instead of succeeding
with a zero modification time — so the date headers can fail the whole call. -/
theorem C8_counterexample :
    (DufsFile.Stat (fun _ => none) "f" ⟨0, none⟩
        ⟨200, "200 OK", "attachment", "", "", "garbage", "", 7, []⟩).1 =
      Except.error GoErr.parseErr := by
  rfl

/-- C8 amended: for every 2xx metadata reply, Stat derives the modification
time from `Last-Modified`, falling back to `Date` when `Last-Modified` is
empty; when both are empty it leaves the modification time at its zero value
and succeeds, but when the chosen header value is non-empty and unparseable it
fails the call with the parse error; it reports size zero for a directory
and the declared content length otherwise; and on success it unconditionally
overwrites the handle's cached metadata with the returned value. -/
theorem C8_amended (parse : String → Option Int) (name : String)
    (st : DufsFileState) (resp : HttpResponse)
    (hok : 200 ≤ resp.statusCode ∧ resp.statusCode < 300) :
    ((if resp.lastModified = "" then resp.date else resp.lastModified) = "" →
      DufsFile.Stat parse name st resp =
        (Except.ok ⟨name, if determineIsDir resp then 0 else resp.contentLength,
            511, none, determineIsDir resp⟩,
         { st with cachedState := some ⟨name,
            if determineIsDir resp then 0 else resp.contentLength,
            511, none, determineIsDir resp⟩ })) ∧
    ((if resp.lastModified = "" then resp.date else resp.lastModified) ≠ "" →
      parse (if resp.lastModified = "" then resp.date else resp.lastModified) = none →
      DufsFile.Stat parse name st resp = (Except.error GoErr.parseErr, st)) ∧
    (∀ t, (if resp.lastModified = "" then resp.date else resp.lastModified) ≠ "" →
      parse (if resp.lastModified = "" then resp.date else resp.lastModified) = some t →
      DufsFile.Stat parse name st resp =
        (Except.ok ⟨name, if determineIsDir resp then 0 else resp.contentLength,
            511, some t, determineIsDir resp⟩,
         { st with cachedState := some ⟨name,
            if determineIsDir resp then 0 else resp.contentLength,
            511, some t, determineIsDir resp⟩ })) := by
  have h404 : resp.statusCode ≠ 404 := by omega
  have hfail : isFailStatus resp.statusCode = false := by
    unfold isFailStatus
    simp only [Bool.or_eq_false_iff, decide_eq_false_iff_not, not_lt, Int.not_le]
    omega
  have hjson : jsonFilter resp = Except.ok resp := by
    unfold jsonFilter
    simp [h404, hfail]
  refine ⟨?_, ?_, ?_⟩
  · intro hlm
    have hstat : DufsFile.statOnResp parse name resp =
        Except.ok ⟨name, if determineIsDir resp then 0 else resp.contentLength,
          511, none, determineIsDir resp⟩ := by
      unfold DufsFile.statOnResp
      simp only [hlm, if_true, ite_true]
    unfold DufsFile.Stat
    rw [hjson]
    simp [hstat]
  · intro hlm hparse
    have hstat : DufsFile.statOnResp parse name resp = Except.error GoErr.parseErr := by
      unfold DufsFile.statOnResp
      simp only [if_neg hlm, hparse]
    unfold DufsFile.Stat
    rw [hjson]
    simp [hstat]
  · intro t hlm hparse
    have hstat : DufsFile.statOnResp parse name resp =
        Except.ok ⟨name, if determineIsDir resp then 0 else resp.contentLength,
          511, some t, determineIsDir resp⟩ := by
      unfold DufsFile.statOnResp
      simp only [if_neg hlm, hparse]
    unfold DufsFile.Stat
    rw [hjson]
    simp [hstat]

/-- Witness for the amended C8: a 2xx HEAD reply for a plain file with both
date headers empty yields size 7, a zero modification time, and the cache
overwritten (here replacing an older cached value), all via the amended
theorem. -/
theorem C8_amended_witness :
    DufsFile.Stat (fun _ => some 5) "f" ⟨2, some ⟨"old", 1, 511, none, true⟩⟩
        ⟨200, "200 OK", "attachment", "", "", "", "", 7, []⟩ =
      (Except.ok ⟨"f", 7, 511, none, false⟩,
       ⟨2, some ⟨"f", 7, 511, none, false⟩⟩) := by
  exact (C8_amended (fun _ => some 5) "f" ⟨2, some ⟨"old", 1, 511, none, true⟩⟩
    ⟨200, "200 OK", "attachment", "", "", "", "", 7, []⟩ (by norm_num)).1 rfl

/-- Convenience response used where an oracle argument is irrelevant (the
operation never issues that request on the path under study). -/
def emptyResp : HttpResponse :=
  ⟨200, "200 OK", "", "", "", "", "", 0, []⟩

/-- Result of `DufsFile.Read`: the returned count `n` and error (Go returns
both), the prefix of the caller's buffer overwritten by `copy(p, buf.Bytes())`,
and the handle state after the call. -/
structure ReadResult where
  n : Int
  readErr : Option GoErr
  written : List Nat
  state : DufsFileState
deriving DecidableEq

/-- Embedding of `DufsFile.Read`. `pLen` is `len(p)`; `statResp` is the HEAD
reply used when the metadata cache is empty, `getResp` the reply to the ranged
GET. Mirrors the source line by line: compute `end = index + len(p) - 1`,
obtain `CachedStat`, clamp `end` to `size - 1`, return `io.EOF` when
`index >= end`, issue the ranged GET, reject directory responses with
`fs.ErrInvalid`, advance the cursor to `end + 1`, then
`io.CopyN(buf, resp.Body, resp.ContentLength)` followed by
`copy(p, buf.Bytes())` — the copy takes `min(ContentLength, len(body))` bytes
(with an `io.EOF` error when the body is shorter than the declared length)
and at most `len(p)` of them land in the caller's buffer. -/
def DufsFile.Read (parse : String → Option Int) (name : String)
    (st : DufsFileState) (pLen : Nat) (statResp getResp : HttpResponse) :
    ReadResult :=
  let end0 : Int := st.index + (pLen : Int) - 1
  match DufsFile.CachedStat parse name st statResp with
  | (Except.error e, st1) => ⟨0, some e, [], st1⟩
  | (Except.ok stat, st1) =>
    let endC := if end0 ≥ stat.size then stat.size - 1 else end0
    if st1.index ≥ endC then ⟨0, some GoErr.eof, [], st1⟩
    else
      match jsonFilter getResp with
      | Except.error e => ⟨0, some e, [], st1⟩
      | Except.ok resp =>
        if determineIsDir resp then ⟨0, some GoErr.errInvalid, [], st1⟩
        else
          let copied := min resp.contentLength.toNat resp.body.length
          let copyErr : Option GoErr :=
            if (copied : Int) < resp.contentLength then some GoErr.eof else none
          ⟨(copied : Int), copyErr, (resp.body.take copied).take pLen,
            { st1 with index := endC + 1 }⟩

/-- C1 (bug evaluation): at cached size 2 and cursor 1 (one unread byte
remaining), a Read with an 8-byte buffer returns `io.EOF` with zero bytes
copied, and at cursor 0 a Read with a 1-byte buffer does the same — both
contradict the claim (and the repository's own random-read test) that
end-of-data is signalled only once the cursor has reached the known size. -/
theorem C1_read_eof_bug :
    (DufsFile.Read (fun _ => none) "f" ⟨1, some ⟨"f", 2, 511, none, false⟩⟩ 8
        emptyResp emptyResp).n = 0 ∧
    (DufsFile.Read (fun _ => none) "f" ⟨1, some ⟨"f", 2, 511, none, false⟩⟩ 8
        emptyResp emptyResp).readErr = some GoErr.eof ∧
    (1 : Int) < 2 ∧
    (DufsFile.Read (fun _ => none) "f" ⟨0, some ⟨"f", 2, 511, none, false⟩⟩ 1
        emptyResp emptyResp).readErr = some GoErr.eof ∧
    (0 : Int) < 2 := by
  exact ⟨rfl, rfl, by norm_num, rfl, by norm_num⟩

/-- C5: on the successful ranged-read path (cached size known, the EOF guard
passed, a 2xx non-directory reply whose body covers the declared content
length), Read writes `min(ContentLength, len(p))` bytes into the caller's
buffer — never more than the buffer's length — returns the declared content
length and advances the cursor to the clamped end plus one; when the declared
length fits the buffer it copies exactly that many bytes with no error. When
the reply is classified as a directory, Read fails with `fs.ErrInvalid`, the
cursor unchanged. -/
theorem C5_read_success (parse : String → Option Int) (name : String)
    (st : DufsFileState) (pLen : Nat) (statResp getResp : HttpResponse)
    (info : HttpFileInfo) (endC : Int)
    (hcache : st.cachedState = some info)
    (hend : endC = if st.index + (pLen : Int) - 1 ≥ info.size then info.size - 1
                   else st.index + (pLen : Int) - 1)
    (hlt : st.index < endC)
    (hok : 200 ≤ getResp.statusCode ∧ getResp.statusCode < 300) :
    (determineIsDir getResp = true →
      DufsFile.Read parse name st pLen statResp getResp =
        ⟨0, some GoErr.errInvalid, [], st⟩) ∧
    (determineIsDir getResp = false →
      (DufsFile.Read parse name st pLen statResp getResp).written.length ≤ pLen ∧
      (DufsFile.Read parse name st pLen statResp getResp).state.index = endC + 1 ∧
      (0 ≤ getResp.contentLength →
       getResp.contentLength ≤ (getResp.body.length : Int) →
        (DufsFile.Read parse name st pLen statResp getResp).n =
          getResp.contentLength ∧
        (DufsFile.Read parse name st pLen statResp getResp).readErr = none ∧
        (getResp.contentLength ≤ (pLen : Int) →
          ((DufsFile.Read parse name st pLen statResp getResp).written.length : Int) =
            getResp.contentLength))) := by
  have h404 : getResp.statusCode ≠ 404 := by omega
  have hfail : isFailStatus getResp.statusCode = false := by
    unfold isFailStatus
    simp only [Bool.or_eq_false_iff, decide_eq_false_iff_not, not_lt, Int.not_le]
    omega
  have hjson : jsonFilter getResp = Except.ok getResp := by
    unfold jsonFilter
    simp [h404, hfail]
  have hcs : DufsFile.CachedStat parse name st statResp = (Except.ok info, st) := by
    unfold DufsFile.CachedStat
    rw [hcache]
  unfold DufsFile.Read
  rw [hcs]
  simp only [← hend, if_neg (not_le.mpr hlt), hjson]
  constructor
  · intro hdir
    simp [hdir]
  · intro hdir
    simp only [hdir, if_neg (by simp : ¬ (false = true))]
    refine ⟨?_, by trivial, ?_⟩
    · simp only [List.length_take]
      omega
    · intro hnn hbody
      have hcopied : min getResp.contentLength.toNat getResp.body.length =
          getResp.contentLength.toNat := by omega
      refine ⟨?_, ?_, ?_⟩
      · simp only [hcopied]
        omega
      · simp only [hcopied]
        rw [if_neg]
        omega
      · intro hfit
        simp only [hcopied, List.length_take]
        omega

/-- Witness for C5: a handle at cursor 0 over a cached 10-byte file, a 4-byte
buffer, and a 2xx file reply carrying the 4 requested bytes: Read returns 4,
writes 4 bytes, and moves the cursor to 4. -/
theorem C5_read_success_witness :
    (DufsFile.Read (fun _ => none) "f" ⟨0, some ⟨"f", 10, 511, none, false⟩⟩ 4
        emptyResp ⟨200, "200 OK", "attachment", "", "", "", "", 4, [10, 20, 30, 40]⟩).n = 4 ∧
    (DufsFile.Read (fun _ => none) "f" ⟨0, some ⟨"f", 10, 511, none, false⟩⟩ 4
        emptyResp ⟨200, "200 OK", "attachment", "", "", "", "", 4, [10, 20, 30, 40]⟩).readErr = none ∧
    (DufsFile.Read (fun _ => none) "f" ⟨0, some ⟨"f", 10, 511, none, false⟩⟩ 4
        emptyResp ⟨200, "200 OK", "attachment", "", "", "", "", 4, [10, 20, 30, 40]⟩).state.index = 4 := by
  have h := C5_read_success (fun _ => none) "f" ⟨0, some ⟨"f", 10, 511, none, false⟩⟩ 4
    emptyResp ⟨200, "200 OK", "attachment", "", "", "", "", 4, [10, 20, 30, 40]⟩
    ⟨"f", 10, 511, none, false⟩ 3 rfl (by norm_num) (by norm_num) (by norm_num)
  have h2 := h.2 rfl
  have h3 := h2.2.2 (by norm_num) (by norm_num)
  exact ⟨h3.1, h3.2.1, by rw [h2.2.1]; norm_num⟩

/-- Range header value of the partial-update request (`x-update-range`):
either the literal `append` or an explicit inclusive byte range. -/
inductive UpdateRange where
  | append
  | bytes (lo hi : Int)
deriving DecidableEq

/-- Upload request issued by `WriteAt`: a PATCH carrying the range header and
body, or a full-body PUT (the `ReadFrom` creation path). -/
inductive WriteReq where
  | patch (range : UpdateRange) (body : List Nat)
  | put (body : List Nat)
deriving DecidableEq

/-- Result of `DufsFile.WriteAt`: returned count and error, the upload request
issued (if any), and the handle state after the call. -/
structure WriteResult where
  n : Int
  writeErr : Option GoErr
  req : Option WriteReq
  state : DufsFileState
deriving DecidableEq

/-- Embedding of `DufsFile.ReadFrom` as called by `WriteAt` on an in-memory
reader over `p`: issues a PUT whose body is `p` wrapped in the byte-counting
pass-through, so the counted length is `len(p)`; a non-2xx reply yields
`errors.New(resp.Status)` with count 0; on success the cached metadata is
cleared and the counted length returned. `resp` is the PUT reply. -/
def DufsFile.ReadFromBytes (st : DufsFileState) (p : List Nat)
    (resp : HttpResponse) : (Int × Option GoErr) × DufsFileState :=
  if isFailStatus resp.statusCode then
    ((0, some (GoErr.statusErr resp.status)), st)
  else
    (((p.length : Int), none), { st with cachedState := none })

/-- Embedding of `DufsFile.WriteAt`. `statResp` is the HEAD reply used when the
metadata cache is empty, `writeResp` the reply to the PATCH (or to the PUT on
the creation path). Mirrors the source: when `CachedStat` fails with
`fs.ErrNotExist` and the offset is 0, delegate to `ReadFrom` and set the
cursor to its count; on any other metadata failure return that error without
uploading. Otherwise issue the PATCH whose `x-update-range` header is `append`
when `offset >= size` and `bytes=index-(offset+len(p)-1)` otherwise; a non-2xx
reply yields `errors.New(resp.Status)` leaving cursor and cache untouched; a
2xx reply advances the cursor to `end+1` and clears the cache. -/
def DufsFile.WriteAt (parse : String → Option Int) (name : String)
    (st : DufsFileState) (p : List Nat) (offset : Int)
    (statResp writeResp : HttpResponse) : WriteResult :=
  match DufsFile.CachedStat parse name st statResp with
  | (Except.error e, st1) =>
    if e = GoErr.errNotExist ∧ offset = 0 then
      match DufsFile.ReadFromBytes st1 p writeResp with
      | ((n, errF), st2) => ⟨n, errF, some (WriteReq.put p), { st2 with index := n }⟩
    else ⟨0, some e, none, st1⟩
  | (Except.ok stat, st1) =>
    let endI := offset + (p.length : Int) - 1
    let range := if offset ≥ stat.size then UpdateRange.append
                 else UpdateRange.bytes st1.index endI
    if isFailStatus writeResp.statusCode then
      ⟨0, some (GoErr.statusErr writeResp.status), some (WriteReq.patch range p), st1⟩
    else
      ⟨(p.length : Int), none, some (WriteReq.patch range p),
        { st1 with index := endI + 1, cachedState := none }⟩

/-- C3: for an existing resource of cached size S, `WriteAt(p, o)` issues a
PATCH whose range header is the literal append signal when `o >= S` and
otherwise the explicit inclusive range from the cursor to `o + len(p) - 1`;
a 2xx reply yields count `len(p)` with no error, cursor `o + len(p)` and an
emptied metadata cache; a non-2xx reply yields the status-text error, count 0,
and the pre-call cursor and cache. -/
theorem C3_writeAt_existing (parse : String → Option Int) (name : String)
    (st : DufsFileState) (p : List Nat) (offset : Int)
    (statResp writeResp : HttpResponse) (info : HttpFileInfo) (r : WriteResult)
    (hcache : st.cachedState = some info) (hp : p ≠ [])
    (hr : r = DufsFile.WriteAt parse name st p offset statResp writeResp) :
    r.req = some (WriteReq.patch
        (if offset ≥ info.size then UpdateRange.append
         else UpdateRange.bytes st.index (offset + (p.length : Int) - 1)) p) ∧
    (200 ≤ writeResp.statusCode ∧ writeResp.statusCode < 300 →
      r.n = (p.length : Int) ∧ r.writeErr = none ∧
      r.state.index = offset + (p.length : Int) ∧ r.state.cachedState = none) ∧
    ((writeResp.statusCode < 200 ∨ 300 ≤ writeResp.statusCode) →
      r.n = 0 ∧ r.writeErr = some (GoErr.statusErr writeResp.status) ∧
      r.state = st) := by
  have hcs : DufsFile.CachedStat parse name st statResp = (Except.ok info, st) := by
    unfold DufsFile.CachedStat
    rw [hcache]
  subst hr
  unfold DufsFile.WriteAt
  rw [hcs]
  by_cases hfail : isFailStatus writeResp.statusCode
  · have h2xx : ¬ (200 ≤ writeResp.statusCode ∧ writeResp.statusCode < 300) := by
      unfold isFailStatus at hfail
      simp only [Bool.or_eq_true, decide_eq_true_eq] at hfail
      omega
    refine ⟨?_, fun h => absurd h h2xx, fun _ => ?_⟩
    · simp [hfail]
    · simp [hfail]
  · have h2xx : 200 ≤ writeResp.statusCode ∧ writeResp.statusCode < 300 := by
      unfold isFailStatus at hfail
      simp only [Bool.or_eq_true, decide_eq_true_eq, not_or] at hfail
      omega
    refine ⟨?_, fun _ => ?_, fun h => by omega⟩
    · simp [hfail]
    · refine ⟨?_, ?_, ?_, ?_⟩ <;> simp [hfail] <;> omega

/-- Witness for C3: cached size 10, cursor 2, a 3-byte buffer written at
offset 2 with a 200 reply: the PATCH range is `bytes=2-4`, the count is 3 and
the cursor moves to 5 with the cache emptied; and at offset 10 (past the end)
with a 503 reply the range is `append`, the write fails with the status text
and the state is unchanged. -/
theorem C3_writeAt_existing_witness :
    (DufsFile.WriteAt (fun _ => none) "f" ⟨2, some ⟨"f", 10, 511, none, false⟩⟩
        [7, 8, 9] 2 emptyResp ⟨200, "200 OK", "", "", "", "", "", 0, []⟩).req =
      some (WriteReq.patch (UpdateRange.bytes 2 4) [7, 8, 9]) ∧
    (DufsFile.WriteAt (fun _ => none) "f" ⟨2, some ⟨"f", 10, 511, none, false⟩⟩
        [7, 8, 9] 2 emptyResp ⟨200, "200 OK", "", "", "", "", "", 0, []⟩).state.index = 5 ∧
    (DufsFile.WriteAt (fun _ => none) "f" ⟨2, some ⟨"f", 10, 511, none, false⟩⟩
        [7, 8, 9] 10 emptyResp ⟨503, "503 Service Unavailable", "", "", "", "", "", 0, []⟩).req =
      some (WriteReq.patch UpdateRange.append [7, 8, 9]) ∧
    (DufsFile.WriteAt (fun _ => none) "f" ⟨2, some ⟨"f", 10, 511, none, false⟩⟩
        [7, 8, 9] 10 emptyResp ⟨503, "503 Service Unavailable", "", "", "", "", "", 0, []⟩).writeErr =
      some (GoErr.statusErr "503 Service Unavailable") := by
  have hA := C3_writeAt_existing (fun _ => none) "f" ⟨2, some ⟨"f", 10, 511, none, false⟩⟩
    [7, 8, 9] 2 emptyResp ⟨200, "200 OK", "", "", "", "", "", 0, []⟩
    ⟨"f", 10, 511, none, false⟩ _ rfl (by simp) rfl
  have hB := C3_writeAt_existing (fun _ => none) "f" ⟨2, some ⟨"f", 10, 511, none, false⟩⟩
    [7, 8, 9] 10 emptyResp ⟨503, "503 Service Unavailable", "", "", "", "", "", 0, []⟩
    ⟨"f", 10, 511, none, false⟩ _ rfl (by simp) rfl
  refine ⟨?_, ?_, ?_, ?_⟩
  · rw [hA.1]
    norm_num
  · rw [(hA.2.1 (by norm_num)).2.2.1]
    norm_num
  · rw [hB.1]
    norm_num
  · exact (hB.2.2 (by norm_num)).2.1

/-- C4: when the metadata lookup fails with does-not-exist and the offset is
exactly zero, `WriteAt` performs a full-body PUT of the buffer, and on a 2xx
reply sets the cursor to the uploaded byte count and returns that count with
no error; when the lookup fails with does-not-exist at a non-zero offset, or
with any other error, `WriteAt` returns that error and issues no upload. -/
theorem C4_writeAt_create (parse : String → Option Int) (name : String)
    (st : DufsFileState) (p : List Nat) (offset : Int)
    (statResp writeResp : HttpResponse) (e : GoErr) (r : WriteResult)
    (hstat : (DufsFile.CachedStat parse name st statResp).1 = Except.error e)
    (hr : r = DufsFile.WriteAt parse name st p offset statResp writeResp) :
    (e = GoErr.errNotExist → offset = 0 →
      r.req = some (WriteReq.put p) ∧
      (200 ≤ writeResp.statusCode ∧ writeResp.statusCode < 300 →
        r.n = (p.length : Int) ∧ r.writeErr = none ∧
        r.state.index = (p.length : Int))) ∧
    (e = GoErr.errNotExist → offset ≠ 0 →
      r.req = none ∧ r.n = 0 ∧ r.writeErr = some e) ∧
    (e ≠ GoErr.errNotExist →
      r.req = none ∧ r.n = 0 ∧ r.writeErr = some e) := by
  subst hr
  unfold DufsFile.WriteAt
  rcases hcs : DufsFile.CachedStat parse name st statResp with ⟨res, st1⟩
  rw [hcs] at hstat
  simp only at hstat
  subst hstat
  refine ⟨?_, ?_, ?_⟩
  · intro he hoff
    subst he
    subst hoff
    by_cases hfail : isFailStatus writeResp.statusCode
    · have h2xx : ¬ (200 ≤ writeResp.statusCode ∧ writeResp.statusCode < 300) := by
        unfold isFailStatus at hfail
        simp only [Bool.or_eq_true, decide_eq_true_eq] at hfail
        omega
      refine ⟨?_, fun h => absurd h h2xx⟩
      simp [DufsFile.ReadFromBytes, hfail]
    · refine ⟨?_, fun _ => ?_⟩
      · simp [DufsFile.ReadFromBytes, hfail]
      · refine ⟨?_, ?_, ?_⟩ <;> simp [DufsFile.ReadFromBytes, hfail]
  · intro he hoff
    subst he
    refine ⟨?_, ?_, ?_⟩ <;> simp [hoff]
  · intro he
    refine ⟨?_, ?_, ?_⟩ <;> simp [he]

/-- Witness for C4: an empty cache with a 404 HEAD reply and a zero offset:
writing `[5, 6]` issues a PUT of those bytes, and with a 201 reply returns
count 2, no error, cursor 2; at offset 3 the same lookup failure is returned
with no upload. -/
theorem C4_writeAt_create_witness :
    (DufsFile.WriteAt (fun _ => none) "f" ⟨0, none⟩ [5, 6] 0
        ⟨404, "404 Not Found", "", "", "", "", "", 0, []⟩
        ⟨201, "201 Created", "", "", "", "", "", 0, []⟩).req = some (WriteReq.put [5, 6]) ∧
    (DufsFile.WriteAt (fun _ => none) "f" ⟨0, none⟩ [5, 6] 0
        ⟨404, "404 Not Found", "", "", "", "", "", 0, []⟩
        ⟨201, "201 Created", "", "", "", "", "", 0, []⟩).n = 2 ∧
    (DufsFile.WriteAt (fun _ => none) "f" ⟨0, none⟩ [5, 6] 0
        ⟨404, "404 Not Found", "", "", "", "", "", 0, []⟩
        ⟨201, "201 Created", "", "", "", "", "", 0, []⟩).state.index = 2 ∧
    (DufsFile.WriteAt (fun _ => none) "f" ⟨0, none⟩ [5, 6] 3
        ⟨404, "404 Not Found", "", "", "", "", "", 0, []⟩
        ⟨201, "201 Created", "", "", "", "", "", 0, []⟩).writeErr = some GoErr.errNotExist := by
  have hA := C4_writeAt_create (fun _ => none) "f" ⟨0, none⟩ [5, 6] 0
    ⟨404, "404 Not Found", "", "", "", "", "", 0, []⟩
    ⟨201, "201 Created", "", "", "", "", "", 0, []⟩ GoErr.errNotExist _ rfl rfl
  have hB := C4_writeAt_create (fun _ => none) "f" ⟨0, none⟩ [5, 6] 3
    ⟨404, "404 Not Found", "", "", "", "", "", 0, []⟩
    ⟨201, "201 Created", "", "", "", "", "", 0, []⟩ GoErr.errNotExist _ rfl rfl
  have hA1 := hA.1 rfl rfl
  have hA2 := hA1.2 (by norm_num)
  refine ⟨hA1.1, ?_, ?_, (hB.2.1 rfl (by norm_num)).2.2⟩
  · rw [hA2.1]
    norm_num
  · rw [hA2.2.2]
    norm_num

/-- Embedding of `DufsFile.Seek`. `whence` is the Go `io.SeekStart` /
`io.SeekCurrent` / `io.SeekEnd` constant (0, 1, 2; any other value leaves the
cursor expression unchanged, as the Go `switch` has no default). Mirrors the
source: the new position is assigned to `d.index` first and only then
bounds-checked, so a failed Seek leaves the cursor at the computed
out-of-range position. -/
def DufsFile.Seek (parse : String → Option Int) (name : String)
    (st : DufsFileState) (offset : Int) (whence : Int)
    (statResp : HttpResponse) : Except GoErr Int × DufsFileState :=
  match DufsFile.CachedStat parse name st statResp with
  | (Except.error e, st1) => (Except.error e, st1)
  | (Except.ok stat, st1) =>
    let newIndex :=
      if whence = 0 then offset
      else if whence = 1 then st1.index + offset
      else if whence = 2 then stat.size + offset
      else st1.index
    let st2 := { st1 with index := newIndex }
    if newIndex < 0 then (Except.error GoErr.negOffset, st2)
    else if newIndex > stat.size then (Except.error GoErr.outOfRange, st2)
    else (Except.ok newIndex, st2)

/-- C6 counterexample: on a handle with cached size 10 and cursor 3,
`Seek(-5, SeekStart)` fails with the negative-offset range error, yet the
cursor afterwards is the computed position -5, not the pre-call value 3 — a
failed Seek does not leave the cursor unchanged. -/
theorem C6_counterexample :
    (DufsFile.Seek (fun _ => none) "f" ⟨3, some ⟨"f", 10, 511, none, false⟩⟩
        (-5) 0 emptyResp).1 = Except.error GoErr.negOffset ∧
    (DufsFile.Seek (fun _ => none) "f" ⟨3, some ⟨"f", 10, 511, none, false⟩⟩
        (-5) 0 emptyResp).2.index = -5 ∧
    (-5 : Int) ≠ 3 := by
  exact ⟨rfl, rfl, by norm_num⟩

/-- C6 amended: for a handle of cached size S, Seek computes the new position
from the mode (absolute, relative-to-current, relative-to-end) and fails with
a range error exactly when that position is negative or exceeds S — but
whether it fails or not, the cursor afterwards holds the computed position:
a failed Seek leaves the cursor at the out-of-range value, not at its
pre-call value. On success the computed position is returned. -/
theorem C6_amended (parse : String → Option Int) (name : String)
    (st : DufsFileState) (offset whence newIndex : Int)
    (statResp : HttpResponse) (info : HttpFileInfo)
    (hcache : st.cachedState = some info)
    (hw : whence = 0 ∨ whence = 1 ∨ whence = 2)
    (hni : newIndex = if whence = 0 then offset
                      else if whence = 1 then st.index + offset
                      else info.size + offset) :
    (DufsFile.Seek parse name st offset whence statResp).2.index = newIndex ∧
    ((newIndex < 0 ∨ newIndex > info.size) ↔
      ∃ e, (DufsFile.Seek parse name st offset whence statResp).1 = Except.error e) ∧
    (newIndex < 0 →
      (DufsFile.Seek parse name st offset whence statResp).1 =
        Except.error GoErr.negOffset) ∧
    (0 ≤ newIndex → newIndex > info.size →
      (DufsFile.Seek parse name st offset whence statResp).1 =
        Except.error GoErr.outOfRange) ∧
    (0 ≤ newIndex → newIndex ≤ info.size →
      (DufsFile.Seek parse name st offset whence statResp).1 =
        Except.ok newIndex) := by
  have hcs : DufsFile.CachedStat parse name st statResp = (Except.ok info, st) := by
    unfold DufsFile.CachedStat
    rw [hcache]
  unfold DufsFile.Seek
  simp only [hcs]
  have hsel : (if whence = 0 then offset
               else if whence = 1 then st.index + offset
               else if whence = 2 then info.size + offset
               else st.index) = newIndex := by
    rcases hw with h | h | h <;> subst h <;> simp [hni]
  rw [hsel]
  by_cases hneg : newIndex < 0
  · rw [if_pos hneg]
    refine ⟨rfl, ⟨fun _ => ⟨GoErr.negOffset, rfl⟩, fun _ => Or.inl hneg⟩,
      fun _ => rfl, fun h1 _ => absurd h1 (by omega), fun h1 _ => absurd h1 (by omega)⟩
  · by_cases hover : newIndex > info.size
    · rw [if_neg hneg, if_pos hover]
      refine ⟨rfl, ⟨fun _ => ⟨GoErr.outOfRange, rfl⟩, fun _ => Or.inr hover⟩,
        fun h => absurd h hneg, fun _ _ => rfl, fun _ h => absurd h (by omega)⟩
    · rw [if_neg hneg, if_neg hover]
      refine ⟨rfl, ⟨fun h => absurd h (by omega), ?_⟩,
        fun h => absurd h hneg, fun _ h => absurd h hover, fun _ _ => rfl⟩
      rintro ⟨e, he⟩
      exact absurd he (by simp)

/-- Witness for the amended C6: cached size 10, cursor 3, `Seek(4, SeekCurrent)`
computes position 7, succeeds returning 7, and the cursor holds 7. -/
theorem C6_amended_witness :
    (DufsFile.Seek (fun _ => none) "f" ⟨3, some ⟨"f", 10, 511, none, false⟩⟩
        4 1 emptyResp).1 = Except.ok 7 ∧
    (DufsFile.Seek (fun _ => none) "f" ⟨3, some ⟨"f", 10, 511, none, false⟩⟩
        4 1 emptyResp).2.index = 7 := by
  have h := C6_amended (fun _ => none) "f" ⟨3, some ⟨"f", 10, 511, none, false⟩⟩
    4 1 7 emptyResp ⟨"f", 10, 511, none, false⟩ rfl (Or.inr (Or.inl rfl)) (by norm_num)
  exact ⟨h.2.2.2.2 (by norm_num) (by norm_num), h.1⟩

/-- Result of a facade operation: a value, a returned Go error, or a runtime
panic — the outcome of calling a nil function value, which Go does not turn
into an error. -/
inductive Outcome (α : Type) where
  | ok (a : α)
  | err (e : GoErr)
  | panicked
deriving DecidableEq

/-- Abstraction of an opened `fs.File` as the facade observes it: the bytes a
full `io.Copy` from it would produce (or the error it would fail with), the
result of its `Stat`, whether it implements `fs.ReadDirFile`, and the result
of its `ReadDir(-1)`. -/
structure FileSim where
  content : List Nat
  copyErr : Option GoErr
  statRes : Except GoErr HttpFileInfo
  supportsReadDir : Bool
  readDirRes : Except GoErr (List HttpFileInfo)

/-- Go `bytes.Buffer` contents. -/
structure GoBuffer where
  data : List Nat
deriving DecidableEq

/-- Semantics of `io.Copy(writer, file)` into a `bytes.Buffer`: on success the
buffer's internal slice is extended with the file's full content. The caller's
original slice variable is unaffected — `bytes.Buffer` grows by reallocating,
never through the slice it was constructed over. -/
def ioCopyToBuffer (w : GoBuffer) (f : FileSim) : Except GoErr GoBuffer :=
  match f.copyErr with
  | some e => Except.error e
  | none => Except.ok ⟨w.data ++ f.content⟩

/-- Embedding of `HttpVFS.Open`: the only facade entry point that guards
against an unset `OpenFunc`, returning the not-implemented error. -/
def HttpVFS.Open (openFunc : Option (String → Except GoErr FileSim))
    (name : String) : Outcome FileSim :=
  match openFunc with
  | none => Outcome.err (GoErr.notImplemented "func Open is not implemented")
  | some f =>
    match f name with
    | Except.error e => Outcome.err e
    | Except.ok file => Outcome.ok file

/-- Embedding of `HttpVFS.ReadFile`: calls `d.OpenFunc(name)` directly with no
nil guard (a nil `OpenFunc` is a nil-function call, hence `panicked`), then
declares `var buf []byte`, wraps it in `bytes.NewBuffer(buf)`, copies the
whole file into that buffer — and returns the original `buf` slice, not the
buffer's accumulated contents. -/
def HttpVFS.ReadFile (openFunc : Option (String → Except GoErr FileSim))
    (name : String) : Outcome (List Nat) :=
  match openFunc with
  | none => Outcome.panicked
  | some f =>
    match f name with
    | Except.error e => Outcome.err e
    | Except.ok file =>
      let buf : List Nat := []
      match ioCopyToBuffer ⟨buf⟩ file with
      | Except.error e => Outcome.err e
      | Except.ok _writer => Outcome.ok buf

/-- Embedding of `HttpVFS.ReadDir`: calls `d.OpenFunc(name)` directly with no
nil guard, then delegates to the handle's `ReadDir(-1)` when it implements
`fs.ReadDirFile`, and fails with `fs.ErrInvalid` otherwise. -/
def HttpVFS.ReadDir (openFunc : Option (String → Except GoErr FileSim))
    (name : String) : Outcome (List HttpFileInfo) :=
  match openFunc with
  | none => Outcome.panicked
  | some f =>
    match f name with
    | Except.error e => Outcome.err e
    | Except.ok file =>
      if file.supportsReadDir then
        match file.readDirRes with
        | Except.error e => Outcome.err e
        | Except.ok entries => Outcome.ok entries
      else Outcome.err GoErr.errInvalid

/-- Embedding of `HttpVFS.Stat`: calls `d.OpenFunc(name)` directly with no nil
guard, then delegates to the handle's `Stat`. -/
def HttpVFS.Stat (openFunc : Option (String → Except GoErr FileSim))
    (name : String) : Outcome HttpFileInfo :=
  match openFunc with
  | none => Outcome.panicked
  | some f =>
    match f name with
    | Except.error e => Outcome.err e
    | Except.ok file =>
      match file.statRes with
      | Except.error e => Outcome.err e
      | Except.ok s => Outcome.ok s

/-- C2: for every path whose open and whole-body download both succeed, the
facade's ReadFile returns the empty (nil) slice regardless of the remote
content: the downloaded bytes land in the `bytes.Buffer` built over the nil
slice `buf`, but the function returns the untouched `buf` itself. -/
theorem C2_readFile_returns_nil (f : String → Except GoErr FileSim)
    (name : String) (file : FileSim)
    (hopen : f name = Except.ok file) (hcopy : file.copyErr = none) :
    HttpVFS.ReadFile (some f) name = Outcome.ok [] := by
  unfold HttpVFS.ReadFile
  simp only [hopen, ioCopyToBuffer, hcopy]

/-- Witness for C2: a file whose download yields `[1, 2, 3]` still makes
ReadFile return the empty slice. -/
theorem C2_readFile_returns_nil_witness :
    HttpVFS.ReadFile
      (some (fun _ =>
        Except.ok ⟨[1, 2, 3], none, Except.error GoErr.errInvalid, true, Except.ok []⟩))
      "x" = Outcome.ok [] := by
  exact C2_readFile_returns_nil _ "x"
    ⟨[1, 2, 3], none, Except.error GoErr.errInvalid, true, Except.ok []⟩ rfl rfl

/-- C10: with the open-handle constructor unset, `Open` returns the
not-implemented error, but `ReadDir`, `ReadFile` and `Stat` invoke the unset
constructor directly and end in a nil-function panic rather than an error. -/
theorem C10_nil_openFunc (name : String) :
    HttpVFS.Open none name =
      Outcome.err (GoErr.notImplemented "func Open is not implemented") ∧
    HttpVFS.ReadDir none name = Outcome.panicked ∧
    HttpVFS.ReadFile none name = Outcome.panicked ∧
    HttpVFS.Stat none name = Outcome.panicked := by
  exact ⟨rfl, rfl, rfl, rfl⟩
